import Mathlib

/-!
Verification of `clock.py` (pneumaticdeath/location_clock): a shallow
embedding of the zone registry, identity registry, state store, event
router, reload handler and reconnect backoff, with theorems settling the
specification claims.
-/

namespace LocationClock

/-- Model of Python `re.search(pattern, s)` restricted to literal patterns:
true iff `pattern` occurs as a contiguous substring anywhere in `s`
(a regex search is not anchored, so a match anywhere counts). -/
def reSearch (pattern s : String) : Bool :=
  go pattern.toList s.toList
where
  go (p : List Char) : List Char → Bool
    | [] => p.isEmpty
    | c :: rest => p.isPrefixOf (c :: rest) || go p rest

/-- `clock.py` line 23-27 (`Location.matches`): a `None` pattern never
matches; otherwise Python evaluates `re.search(self.pattern, region_name)`. -/
structure Location where
  name : String
  pattern : Option String
  angle : Int
deriving DecidableEq, Repr

def Location.matches (l : Location) (region : String) : Bool :=
  match l.pattern with
  | some p => reSearch p region
  | none => false

/-- Transition event as decoded from the MQTT payload: the JSON keys
`_type`, `event` and `desc` used by `clock.py`. -/
structure Event where
  _type : String
  event : String
  desc : String
deriving DecidableEq, Repr

/-- The `locations` config section: its declared keys in declaration
order, and total value lookup (a missing required key is a fatal startup
error, out of scope here, so lookup is modelled total). -/
structure LocationsConfig where
  keys : List String
  get : String → String

/-- Model of `re.match('location\d+$', x)`: anchored at the start,
`location` followed by one or more digits, then end of string. -/
def isLocKey (k : String) : Bool :=
  ("location".toList).isPrefixOf k.toList &&
    (k.toList.drop 8 ≠ []) && (k.toList.drop 8).all (fun c => c.isDigit)

/-- Lexicographic strict order on code points, as Python compares
strings. -/
def lexLt : List Char → List Char → Bool
  | [], [] => false
  | [], _ :: _ => true
  | _ :: _, [] => false
  | a :: as, b :: bs =>
    if a.toNat < b.toNat then true
    else if b.toNat < a.toNat then false
    else lexLt as bs

/-- Insertion into a sorted list of strings, keeping stability. -/
def insertStr (x : String) : List String → List String
  | [] => [x]
  | y :: ys => if lexLt y.toList x.toList then y :: insertStr x ys else x :: y :: ys

/-- Model of Python `list.sort()` on strings (lexicographic order). -/
def sortStrings : List String → List String
  | [] => []
  | x :: xs => insertStr x (sortStrings xs)

/-- Decimal digits to the number they denote. -/
def parseNat (cs : List Char) : Nat :=
  cs.foldl (fun acc c => acc * 10 + (c.toNat - 48)) 0

/-- Model of Python `int(...)` on a well-formed config value. -/
def toIntCfg (s : String) : Int :=
  match s.toList with
  | '-' :: rest => -(parseNat rest : Int)
  | cs => (parseNat cs : Int)

/-- `clock.py` lines 32-43 (`Locations.__init__`): the four fixed
pattern-less zones, plus the named zones built from the sorted
`location<N>` keys of the config section. -/
structure Locations where
  traveling : Location
  unknown : Location
  lost : Location
  mortal_peril : Location
  locations : List Location
deriving Repr

def Locations.init (cfg : LocationsConfig) : Locations where
  traveling := ⟨"traveling", none, toIntCfg (cfg.get "travelingangle")⟩
  unknown := ⟨"in an unknown location", none, toIntCfg (cfg.get "unknownangle")⟩
  lost := ⟨"lost", none, toIntCfg (cfg.get "lostangle")⟩
  mortal_peril := ⟨"in mortal peril", none, toIntCfg (cfg.get "mortalperilangle")⟩
  locations :=
    (sortStrings (cfg.keys.filter isLocKey)).map
      (fun k => ⟨cfg.get k, some (cfg.get (k ++ "pattern")),
                 toIntCfg (cfg.get (k ++ "angle"))⟩)

/-- The `for loc in self.locations` scan of `Locations.getLoc`
(lines 58-60): first location whose pattern matches, else nothing. -/
def firstMatch (desc : String) : List Location → Option Location
  | [] => none
  | l :: rest => if l.matches desc then some l else firstMatch desc rest

/-- `clock.py` lines 51-61 (`Locations.getLoc`): `None` for
non-transition events, `traveling` on leave, otherwise the first
matching named location, defaulting to `unknown`. -/
def Locations.getLoc (L : Locations) (ev : Event) : Option Location :=
  if ev._type ≠ "transition" then none
  else if ev.event = "leave" then some L.traveling
  else some ((firstMatch ev.desc L.locations).getD L.unknown)

/-- `clock.py` lines 70-76 (`Person.__init__`): note the trailing comma
on line 75, `self.device = device,`, which stores a one-element tuple
(modelled as a one-element list) instead of the string. -/
structure Person where
  name : String
  user : String
  device : List String
  servo : Int
deriving DecidableEq, Repr

def mkPerson (name user device : String) (servo : Int) : Person :=
  { name := name, user := user, device := [device], servo := servo }

/-- One `person<N>` config section: the four keys read by
`Clock.setupPeople` (lines 131-136). -/
structure PersonSection where
  key : String
  name : String
  username : String
  deviceid : String
  servo : Int
deriving DecidableEq, Repr

/-- Model of `re.match('person\d+$', x)`. -/
def isPersonKey (k : String) : Bool :=
  ("person".toList).isPrefixOf k.toList &&
    (k.toList.drop 6 ≠ []) && (k.toList.drop 6).all (fun c => c.isDigit)

/-- Sorting person sections by their section key, as
`people.sort()` does on the key strings (lines 127-128). -/
def insertSec (x : PersonSection) : List PersonSection → List PersonSection
  | [] => [x]
  | y :: ys =>
    if lexLt y.key.toList x.key.toList then y :: insertSec x ys else x :: y :: ys

def sortSections : List PersonSection → List PersonSection
  | [] => []
  | x :: xs => insertSec x (sortSections xs)

/-- `clock.py` lines 125-136 (`Clock.setupPeople`): the identity registry
as an ordered association list from `username + '/' + deviceid` to the
constructed `Person`, built from the person sections in sorted key order. -/
def setupPeople (sections : List PersonSection) : List (String × Person) :=
  (sortSections (sections.filter (fun s => isPersonKey s.key))).map
    (fun s => (s.username ++ "/" ++ s.deviceid,
               mkPerson s.name s.username s.deviceid s.servo))

/-- `clock.py` lines 246-254 (`Clock.findPerson`): scan the registered
patterns in registry order, `re.search(pattern, ident)`, first match
wins, `None` when nothing matches. -/
def findPerson (people : List (String × Person)) (ident : String) : Option Person :=
  match people with
  | [] => none
  | (pat, p) :: rest => if reSearch pat ident then some p else findPerson rest ident

/-- Outcome of one `Clock.onBrokerMessage` call (lines 230-244).
`raised` marks an exception propagating out of the handler (the
unguarded `json.loads` on line 232, or the 4-way topic unpack on
line 236, or the impossible `None` location). -/
inductive HandlerOutcome
  | raised
  | ignoredNonTransition
  | droppedUnknownPerson
  | acted (servo : Int) (angle : Int) (ident : String) (locName : String)
deriving DecidableEq, Repr

/-- The servo commands (`Clock.setLoc`, line 259) a handler outcome
performs. -/
def servoCommands : HandlerOutcome → List (Int × Int)
  | .acted servo angle _ _ => [(servo, angle)]
  | _ => []

/-- The `saveState` calls (line 244) a handler outcome performs, as
`(ident, location name, angle)` triples. -/
def persistCalls : HandlerOutcome → List (String × String × Int)
  | .acted _ angle ident locName => [(ident, locName, angle)]
  | _ => []

/-- `clock.py` lines 230-244 (`Clock.onBrokerMessage`). The topic is
modelled as its `/`-separated segments (the `msg.topic.split('/')` of
line 236) and the payload as the result of `json.loads`: `none` when the
payload is undecodable, in which case the exception propagates — there
is no try/except in the handler. -/
def onBrokerMessage (L : Locations) (people : List (String × Person))
    (topicParts : List String) (decoded : Option Event) : HandlerOutcome :=
  match decoded with
  | none => .raised
  | some ev =>
    if ev._type ≠ "transition" then .ignoredNonTransition
    else
      match topicParts with
      | [_, user, device, _] =>
        let ident := user ++ "/" ++ device
        match findPerson people ident with
        | none => .droppedUnknownPerson
        | some p =>
          match L.getLoc ev with
          | none => .raised
          | some loc => .acted p.servo loc.angle ident loc.name
      | _ => .raised

/-- Outcome of one `INSERT` attempt inside `Clock.saveState`
(lines 290-300): success, the `no such table` OperationalError, or any
other exception. -/
inductive InsertResult
  | ok
  | noSuchTable
  | otherError
deriving DecidableEq, Repr

/-- Observable trace of one `Clock.saveState` call: the results of the
insert attempts in order, the number of `createLocationsTable` calls,
whether the non-schema error branch logged, and whether a commit
succeeded. -/
structure SaveTrace where
  results : List InsertResult
  createCalls : Nat
  loggedOther : Bool
  saved : Bool
deriving DecidableEq, Repr

/-- The `while try_again and attempt_counter < max_attempts` loop of
`Clock.saveState` (lines 284-300), driven by an oracle giving the result
of the n-th insert attempt. `counter` is `attempt_counter`; `remaining`
is `max_attempts - attempt_counter`. Success clears `try_again`; a
`no such table` failure calls `createLocationsTable` and leaves
`try_again` set; any other failure logs and clears `try_again`. -/
def saveStateGo (outcome : Nat → InsertResult) (counter : Nat) :
    Nat → SaveTrace
  | 0 => ⟨[], 0, false, false⟩
  | remaining + 1 =>
    match outcome (counter + 1) with
    | .ok => ⟨[.ok], 0, false, true⟩
    | .noSuchTable =>
      let rest := saveStateGo outcome (counter + 1) remaining
      ⟨.noSuchTable :: rest.results, rest.createCalls + 1,
       rest.loggedOther, rest.saved⟩
    | .otherError => ⟨[.otherError], 0, true, false⟩

/-- `Clock.saveState` with `max_attempts = 3` (line 286). -/
def saveState (outcome : Nat → InsertResult) : SaveTrace :=
  saveStateGo outcome 0 3

/-- The attempt sequence the spec's words prescribe for `recordState`:
retry only after a missing-schema failure, up to 3 total attempts, stop
on success or on any other failure. -/
def recordStateSpecResults (outcome : Nat → InsertResult) : List InsertResult :=
  match outcome 1 with
  | .noSuchTable =>
    match outcome 2 with
    | .noSuchTable => [.noSuchTable, .noSuchTable, outcome 3]
    | r2 => [.noSuchTable, r2]
  | r1 => [r1]

/-- A row of the `location_history` table (lines 312-317): the
`INSTEAD OF INSERT` trigger on the `locations` view appends exactly the
inserted values. The timestamp column is modelled over `ℚ` because
SQLite stores whatever numeric value is bound (a Python float from
`time.time()` is kept as-is; the `INT` column type is only an affinity). -/
structure LocationRecord where
  ident : String
  location_name : String
  location_angle : Int
  timestamp : ℚ
deriving DecidableEq, Repr

/-- The row bound by the `INSERT` of `Clock.saveState` (lines 280-292):
the given timestamp, or `time.time()` (the clock's current value, a
fractional unix time) when the caller passed none. -/
def saveStateRecord (ident name : String) (angle : Int)
    (timestamp? : Option ℚ) (now : ℚ) : LocationRecord :=
  ⟨ident, name, angle, timestamp?.getD now⟩

/-- SQL `max(timestamp)` aggregate over a list of timestamps. -/
def maxQ : List ℚ → Option ℚ
  | [] => none
  | x :: xs =>
    match maxQ xs with
    | none => some x
    | some m => some (max x m)

/-- The `latest_ident_update` view (lines 322-326) looked up at one
ident: `max(timestamp)` over that ident's history rows. -/
def maxTs (history : List LocationRecord) (ident : String) : Option ℚ :=
  maxQ ((history.filter (fun r => r.ident == ident)).map (fun r => r.timestamp))

/-- The `locations` view (lines 327-332): history rows joined against
`latest_ident_update` on `(ident, timestamp)` — every row whose
timestamp equals its ident's maximum. This is what `setStateFromDB`
(line 264) reads back. -/
def latestStates (history : List LocationRecord) : List LocationRecord :=
  history.filter (fun r => decide (maxTs history r.ident = some r.timestamp))

/-- The side-effecting steps of `Clock.hupHandler` and `Clock.initialize`,
in order. -/
inductive InitStep
  | disconnect
  | readConfig
  | setupLocations
  | setupPeople
  | setupServos
  | startupTest
  | setupDatabase
  | setupMQTT
deriving DecidableEq, Repr

/-- `clock.py` lines 102-114 (`Clock.hupHandler`): on SIGHUP, disconnect
the broker if currently connected, then re-read config and rebuild
locations, people, servos (plus the optional servo test) and the
database; MQTT setup is deliberately not rerun (line 114). -/
def hupHandler (broker_connected servo_test : Bool) : List InitStep :=
  (if broker_connected then [.disconnect] else []) ++
    [.readConfig, .setupLocations, .setupPeople, .setupServos] ++
    (if servo_test then [.startupTest] else []) ++
    [.setupDatabase]

/-- What one `Clock.loop` iteration (lines 351-365) observed: the broker
loop returned `MQTT_ERR_CONN_LOST` and the reconnect call succeeded or
raised, or it returned another nonzero code, or it returned 0. -/
inductive LoopOutcome
  | connLostReconnectOk
  | connLostReconnectFail
  | otherError
  | ok
deriving DecidableEq, Repr

/-- One `Clock.loop` iteration's effect on the backoff state: the sleep
performed (if any) and the new `reconnect_interval`. On a failed
reconnect the code sleeps the current interval and then sets it to
`min(max_reconnect_interval, 2*reconnect_interval)` (lines 360-361); on
a clean iteration it resets it to `min_reconnect_interval` (line 365);
otherwise it is untouched. -/
def loopStep (minI maxI interval : Nat) : LoopOutcome → Option Nat × Nat
  | .connLostReconnectFail => (some interval, min maxI (2 * interval))
  | .connLostReconnectOk => (none, interval)
  | .otherError => (none, interval)
  | .ok => (none, minI)

/-- Defaults of `Clock.__init__` (line 81): `min_reconnect_interval=1`,
`max_reconnect_interval=120`, and `reconnect_interval` starts at the
minimum (line 85). -/
def defaultMinReconnect : Nat := 1

def defaultMaxReconnect : Nat := 120

/-- The `reconnect_interval` after `k` consecutive failed reconnect
attempts starting from the initial value `minI`. -/
def intervalAfterFailures (minI maxI : Nat) : Nat → Nat
  | 0 => minI
  | k + 1 => (loopStep minI maxI (intervalAfterFailures minI maxI k) .connLostReconnectFail).2

/-- The sleep performed on the `(k+1)`-th consecutive failed reconnect
attempt (the code sleeps the current interval before doubling it). -/
def sleepOnFailure (minI maxI k : Nat) : Option Nat :=
  (loopStep minI maxI (intervalAfterFailures minI maxI k) .connLostReconnectFail).1

/-- History with two records for identity `a` carrying the same
timestamp: the `locations` view join (`latestStates`) keeps both rows. -/
def hEx : List LocationRecord :=
  [⟨"a", "x", 1, mkRat 5 1⟩, ⟨"a", "y", 2, mkRat 5 1⟩]

/-- History with distinct timestamps for identity `a`, used as a
concrete instance for the latest-state property. -/
def hW : List LocationRecord :=
  [⟨"a", "x", 1, mkRat 3 1⟩, ⟨"a", "y", 2, mkRat 7 1⟩, ⟨"b", "z", 3, mkRat 9 1⟩]

/-! Concrete fixtures used by witnesses and counterexamples: the
scenario configuration of spec section 8 (`home` declared first with
angle 45, then `work`). -/

def cfg0 : LocationsConfig where
  keys := ["location1", "location1pattern", "location1angle",
           "location2", "location2pattern", "location2angle",
           "travelingangle", "unknownangle", "lostangle", "mortalperilangle"]
  get := fun k =>
    if k = "location1" then "home" else
    if k = "location1pattern" then "home" else
    if k = "location1angle" then "45" else
    if k = "location2" then "work" else
    if k = "location2pattern" then "work" else
    if k = "location2angle" then "90" else
    if k = "travelingangle" then "0" else
    if k = "unknownangle" then "180" else
    if k = "lostangle" then "135" else
    if k = "mortalperilangle" then "170" else ""

/-- Claim C7: for every transition event with action `leave`, zone
resolution returns the `traveling` zone, regardless of the event's
`regionDescription` (`clock.py` lines 55-56). -/
theorem getLoc_leave_traveling (L : Locations) (ev : Event)
    (h1 : ev._type = "transition") (h2 : ev.event = "leave") :
    L.getLoc ev = some L.traveling := by
  simp [Locations.getLoc, h1, h2]

/-- Witness for C7 at a concrete registry and event. -/
theorem getLoc_leave_traveling_witness :
    (Locations.init cfg0).getLoc ⟨"transition", "leave", "Home WiFi"⟩ =
      some (Locations.init cfg0).traveling :=
  getLoc_leave_traveling (Locations.init cfg0) ⟨"transition", "leave", "Home WiFi"⟩ rfl rfl

/-- Counterexample to claim C4: on an undecodable payload the handler
does not log-and-drop the event — the `json.loads` on line 232 is
unguarded, so the decode error propagates out of `onBrokerMessage`
(outcome `raised`, not a drop). -/
theorem onBrokerMessage_decode_failure_cex :
    onBrokerMessage (Locations.init cfg0) [] ["owntracks", "u", "d", "event"] none =
      .raised := rfl

/-- Claim C4 as amended: for every message whose payload cannot be
decoded, the decode failure propagates out of the handler (there is no
try/except around `json.loads`); the handler neither logs nor drops it. -/
theorem onBrokerMessage_decode_failure_raises (L : Locations)
    (people : List (String × Person)) (topicParts : List String) :
    onBrokerMessage L people topicParts none = .raised := rfl

/-- Counterexample to claim C5: when the broker is connected, the HUP
reload handler disconnects the live connection (`clock.py` lines
104-106), so the existing connection is not kept intact. -/
theorem hupHandler_disconnects_cex :
    InitStep.disconnect ∈ hupHandler true false := by decide

/-- Claim C5 as amended: the reload handler re-reads configuration and
rebuilds locations, people, servos and the state database, and never
reruns the event-feed setup (no new MQTT client or connection is
created); but it does disconnect the existing connection exactly when
the broker is currently connected, leaving reconnection to the existing
client's callbacks. -/
theorem hupHandler_rebuild_no_mqtt_setup (connected servo_test : Bool) :
    InitStep.setupMQTT ∉ hupHandler connected servo_test ∧
    (InitStep.disconnect ∈ hupHandler connected servo_test ↔ connected = true) ∧
    InitStep.readConfig ∈ hupHandler connected servo_test ∧
    InitStep.setupLocations ∈ hupHandler connected servo_test ∧
    InitStep.setupPeople ∈ hupHandler connected servo_test ∧
    InitStep.setupDatabase ∈ hupHandler connected servo_test := by
  cases connected <;> cases servo_test <;> decide

/-- The reconnect interval after `k` consecutive failures from the
default initial value 1 is `min 120 (2 ^ k)`. -/
lemma intervalAfterFailures_default (k : Nat) :
    intervalAfterFailures 1 120 k = min 120 (2 ^ k) := by
  induction k with
  | zero => decide
  | succ k ih =>
    show (loopStep 1 120 (intervalAfterFailures 1 120 k) .connLostReconnectFail).2 = _
    rw [ih]
    simp only [loopStep]
    rw [pow_succ]
    generalize (2 : Nat) ^ k = m
    omega

/-- Counterexample to claim C6: the interval does not reset to the
minimum after a successful reconnect. After two consecutive failures the
interval has grown to 4; a successful `broker.reconnect()` inside the
`MQTT_ERR_CONN_LOST` branch (lines 356-357) touches neither the sleep
nor the interval — only the `else` branch for a clean `loop()` return
resets it (line 365) — so the interval stays 4, and a further
lost-connection with failed reconnect sleeps 4, not the minimum 1. -/
theorem backoff_no_reset_on_reconnect_cex :
    intervalAfterFailures defaultMinReconnect defaultMaxReconnect 2 = 4 ∧
    (loopStep defaultMinReconnect defaultMaxReconnect 4 .connLostReconnectOk).2 = 4 ∧
    ¬ ((loopStep defaultMinReconnect defaultMaxReconnect 4 .connLostReconnectOk).2 =
        defaultMinReconnect) ∧
    (loopStep defaultMinReconnect defaultMaxReconnect 4 .connLostReconnectFail).1 =
      some 4 := by
  decide

/-- Claim C6 as amended: the reconnect backoff starts at the configured
minimum (default 1), the wait slept on the `(k+1)`-th consecutive
failure is `min 120 (2^k)` — i.e. 1, 2, 4, 8, ..., 64, then capped at
120 — and the interval after each failed attempt never exceeds the
configured maximum; a successful reconnect by itself leaves the interval
unchanged, and the reset to the minimum happens only on a clean loop
iteration (a zero return from `broker.loop()`). -/
theorem reconnect_backoff_policy (minI maxI interval k : Nat) :
    intervalAfterFailures defaultMinReconnect defaultMaxReconnect 0 = 1 ∧
    intervalAfterFailures defaultMinReconnect defaultMaxReconnect k = min 120 (2 ^ k) ∧
    sleepOnFailure defaultMinReconnect defaultMaxReconnect k = some (min 120 (2 ^ k)) ∧
    (loopStep minI maxI interval .connLostReconnectFail).2 ≤ maxI ∧
    (loopStep minI maxI interval .connLostReconnectOk).2 = interval ∧
    (loopStep minI maxI interval .ok).2 = minI := by
  refine ⟨rfl, intervalAfterFailures_default k, ?_, ?_, rfl, rfl⟩
  · show some (intervalAfterFailures 1 120 k) = _
    rw [intervalAfterFailures_default k]
  · exact Nat.min_le_left _ _

/-- Counterexample to claim C9: `saveState` defaults the timestamp to
`time.time()`, a float of fractional unix seconds, and binds it to the
insert unchanged; at a clock reading of 3/2 (exactly representable in
binary floating point) the persisted timestamp is not an integer. -/
theorem saveState_timestamp_not_integer_cex :
    ¬ ((saveStateRecord "alice/phone1" "home" 45 none (mkRat 3 2)).timestamp.den = 1) := by
  decide

/-- Claim C9 as amended: every persisted record carries exactly the
timestamp passed in, defaulting to the clock's current value when
absent, with no integer coercion; in particular, when the clock value is
fractional the persisted default timestamp is not an integer. -/
theorem saveState_timestamp_passthrough (ident name : String) (angle : Int)
    (timestamp? : Option ℚ) (now : ℚ) (hnow : now.den ≠ 1) :
    (saveStateRecord ident name angle timestamp? now).timestamp = timestamp?.getD now ∧
    ¬ ((saveStateRecord ident name angle none now).timestamp.den = 1) :=
  ⟨rfl, hnow⟩

/-- Witness for the amended C9 at a concrete fractional clock value. -/
theorem saveState_timestamp_passthrough_witness :
    (saveStateRecord "alice/phone1" "home" 45 (some (mkRat 7 1)) (mkRat 3 2)).timestamp =
      (some (mkRat 7 1)).getD (mkRat 3 2) ∧
    ¬ ((saveStateRecord "alice/phone1" "home" 45 none (mkRat 3 2)).timestamp.den = 1) :=
  saveState_timestamp_passthrough "alice/phone1" "home" 45 (some (mkRat 7 1)) (mkRat 3 2)
    (by decide)

/-- Explicit value of the `saveState` retry loop as a function of the
first three insert outcomes. -/
lemma saveState_eq (outcome : Nat → InsertResult) :
    saveState outcome =
      match outcome 1 with
      | .ok => ⟨[.ok], 0, false, true⟩
      | .otherError => ⟨[.otherError], 0, true, false⟩
      | .noSuchTable =>
        match outcome 2 with
        | .ok => ⟨[.noSuchTable, .ok], 1, false, true⟩
        | .otherError => ⟨[.noSuchTable, .otherError], 1, true, false⟩
        | .noSuchTable =>
          match outcome 3 with
          | .ok => ⟨[.noSuchTable, .noSuchTable, .ok], 2, false, true⟩
          | .otherError => ⟨[.noSuchTable, .noSuchTable, .otherError], 2, true, false⟩
          | .noSuchTable => ⟨[.noSuchTable, .noSuchTable, .noSuchTable], 3, false, false⟩ := by
  cases h1 : outcome 1 <;> cases h2 : outcome 2 <;> cases h3 : outcome 3 <;>
    simp [saveState, saveStateGo, h1, h2, h3]

/-- Claim C2: `saveState` makes between 1 and 3 insert attempts, retries
an attempt exactly when it failed with the missing-schema error (calling
`createLocationsTable` once per such failure), and stops without retry —
after logging — on any other failure. The attempt sequence equals the
spec's retry policy for every possible outcome sequence. -/
theorem saveState_retry_policy (outcome : Nat → InsertResult) :
    (saveState outcome).results = recordStateSpecResults outcome ∧
    1 ≤ (saveState outcome).results.length ∧
    (saveState outcome).results.length ≤ 3 ∧
    (saveState outcome).createCalls = (saveState outcome).results.count .noSuchTable ∧
    (saveState outcome).loggedOther = (saveState outcome).results.contains .otherError := by
  rw [saveState_eq]
  cases h1 : outcome 1 <;> cases h2 : outcome 2 <;> cases h3 : outcome 3 <;>
    simp [recordStateSpecResults, h1, h2, h3, List.count_cons, List.contains]

/-- The `for` scan of `getLoc` returns the first location in list order
whose pattern matches, and nothing when no pattern matches. -/
lemma firstMatch_spec (desc : String) (locs : List Location) :
    (∃ i, ∃ hi : i < locs.length, firstMatch desc locs = some locs[i] ∧
        locs[i].matches desc = true ∧
        ∀ j, ∀ hj : j < locs.length, j < i → locs[j].matches desc = false)
    ∨ (firstMatch desc locs = none ∧ ∀ l ∈ locs, l.matches desc = false) := by
  induction locs with
  | nil => exact Or.inr ⟨rfl, by simp⟩
  | cons l rest ih =>
    cases h : l.matches desc with
    | true =>
      refine Or.inl ⟨0, Nat.succ_pos _, ?_, ?_, ?_⟩
      · simp [firstMatch, h]
      · simpa using h
      · intro j hj hj0
        exact absurd hj0 (Nat.not_lt_zero _)
    | false =>
      rcases ih with ⟨i, hi, h1, h2, h3⟩ | ⟨h1, h2⟩
      · refine Or.inl ⟨i + 1, Nat.succ_lt_succ hi, ?_, ?_, ?_⟩
        · simpa [firstMatch, h] using h1
        · simpa using h2
        · intro j hj hji
          match j, hj with
          | 0, _ => simpa using h
          | j + 1, hj => simpa using h3 j (Nat.lt_of_succ_lt_succ hj) (Nat.lt_of_succ_lt_succ hji)
      · refine Or.inr ⟨by simpa [firstMatch, h] using h1, ?_⟩
        intro x hx
        rcases List.mem_cons.mp hx with rfl | hx2
        · exact h
        · exact h2 x hx2

/-- Claim C1: for every transition event with action `enter`, `getLoc`
scans the named zones of the registry in their built (ascending sorted
key) order and returns the first whose pattern matches the event
description by substring-anywhere regex search; when no named zone
matches, it returns the `unknown` zone (`clock.py` lines 58-61). -/
theorem getLoc_enter_first_match (L : Locations) (ev : Event)
    (h1 : ev._type = "transition") (h2 : ev.event = "enter") :
    (∃ i, ∃ hi : i < L.locations.length,
        L.getLoc ev = some L.locations[i] ∧
        L.locations[i].matches ev.desc = true ∧
        ∀ j, ∀ hj : j < L.locations.length, j < i →
          L.locations[j].matches ev.desc = false)
    ∨ ((∀ l ∈ L.locations, l.matches ev.desc = false) ∧
        L.getLoc ev = some L.unknown) := by
  have hL : L.getLoc ev = some ((firstMatch ev.desc L.locations).getD L.unknown) := by
    simp [Locations.getLoc, h1, h2]
  rcases firstMatch_spec ev.desc L.locations with ⟨i, hi, f1, f2, f3⟩ | ⟨f1, f2⟩
  · exact Or.inl ⟨i, hi, by rw [hL, f1]; rfl, f2, f3⟩
  · exact Or.inr ⟨f2, by rw [hL, f1]; rfl⟩

/-- Witness for C1: `home` is declared first in `cfg0` and matches
`"my home WiFi"` as a substring in the middle of the description. -/
theorem getLoc_enter_first_match_witness :
    (∃ i, ∃ hi : i < (Locations.init cfg0).locations.length,
        (Locations.init cfg0).getLoc ⟨"transition", "enter", "my home WiFi"⟩ =
          some (Locations.init cfg0).locations[i] ∧
        (Locations.init cfg0).locations[i].matches "my home WiFi" = true ∧
        ∀ j, ∀ hj : j < (Locations.init cfg0).locations.length, j < i →
          (Locations.init cfg0).locations[j].matches "my home WiFi" = false)
    ∨ ((∀ l ∈ (Locations.init cfg0).locations, l.matches "my home WiFi" = false) ∧
        (Locations.init cfg0).getLoc ⟨"transition", "enter", "my home WiFi"⟩ =
          some (Locations.init cfg0).unknown) :=
  getLoc_enter_first_match (Locations.init cfg0)
    ⟨"transition", "enter", "my home WiFi"⟩ rfl rfl

/-- `findPerson` returns `None` (without raising) when no registered
pattern search-matches the identity. -/
lemma findPerson_eq_none {people : List (String × Person)} {ident : String}
    (h : ∀ pp ∈ people, reSearch pp.1 ident = false) :
    findPerson people ident = none := by
  induction people with
  | nil => rfl
  | cons pp rest ih =>
    obtain ⟨pat, p⟩ := pp
    have h1 : reSearch pat ident = false := h (pat, p) (List.mem_cons_self _ _)
    simpa [findPerson, h1] using ih (fun q hq => h q (List.mem_cons_of_mem _ hq))

/-- Claim C8: for every incoming identity matching no registered person
pattern, `findPerson` returns not-found without raising, and the router
drops the event with a logged warning: no servo actuation and no
`saveState` call happen for that event (`clock.py` lines 238-241,
246-254). -/
theorem unknown_ident_dropped (L : Locations) (people : List (String × Person))
    (user device : String) (ev : Event)
    (h1 : ev._type = "transition")
    (h2 : ∀ pp ∈ people, reSearch pp.1 (user ++ "/" ++ device) = false) :
    findPerson people (user ++ "/" ++ device) = none ∧
    onBrokerMessage L people ["owntracks", user, device, "event"] (some ev) =
      .droppedUnknownPerson ∧
    servoCommands
      (onBrokerMessage L people ["owntracks", user, device, "event"] (some ev)) = [] ∧
    persistCalls
      (onBrokerMessage L people ["owntracks", user, device, "event"] (some ev)) = [] := by
  have hfp : findPerson people (user ++ "/" ++ device) = none := findPerson_eq_none h2
  have hmsg : onBrokerMessage L people ["owntracks", user, device, "event"] (some ev) =
      .droppedUnknownPerson := by
    simp [onBrokerMessage, h1, hfp]
  exact ⟨hfp, hmsg, by rw [hmsg]; rfl, by rw [hmsg]; rfl⟩

/-- Witness for C8: the spec's scenario — identity `bob/tablet` against
a registry holding only an `alice/phone` pattern. -/
theorem unknown_ident_dropped_witness :
    findPerson [("alice/phone", mkPerson "Alice" "alice" "phone" 0)] ("bob" ++ "/" ++ "tablet") = none ∧
    onBrokerMessage (Locations.init cfg0) [("alice/phone", mkPerson "Alice" "alice" "phone" 0)]
      ["owntracks", "bob", "tablet", "event"] (some ⟨"transition", "enter", "my home WiFi"⟩) =
      .droppedUnknownPerson ∧
    servoCommands
      (onBrokerMessage (Locations.init cfg0) [("alice/phone", mkPerson "Alice" "alice" "phone" 0)]
        ["owntracks", "bob", "tablet", "event"] (some ⟨"transition", "enter", "my home WiFi"⟩)) = [] ∧
    persistCalls
      (onBrokerMessage (Locations.init cfg0) [("alice/phone", mkPerson "Alice" "alice" "phone" 0)]
        ["owntracks", "bob", "tablet", "event"] (some ⟨"transition", "enter", "my home WiFi"⟩)) = [] :=
  unknown_ident_dropped (Locations.init cfg0) [("alice/phone", mkPerson "Alice" "alice" "phone" 0)]
    "bob" "tablet" ⟨"transition", "enter", "my home WiFi"⟩ rfl (by decide)

lemma mem_insertSec {x y : PersonSection} {l : List PersonSection} :
    y ∈ insertSec x l ↔ y = x ∨ y ∈ l := by
  induction l with
  | nil => simp [insertSec]
  | cons b t ih =>
    simp only [insertSec]
    by_cases h : lexLt b.key.toList x.key.toList = true
    · simp only [if_pos h, List.mem_cons, ih]
      tauto
    · simp only [if_neg h, List.mem_cons]

lemma mem_sortSections {x : PersonSection} {l : List PersonSection} :
    x ∈ sortSections l ↔ x ∈ l := by
  induction l with
  | nil => simp [sortSections]
  | cons b t ih => simp [sortSections, mem_insertSec, ih]

/-- Claim C10: every `Person` the identity registry constructs stores a
one-element tuple holding the configured device string in its `device`
field (the trailing comma on `clock.py` line 75), while `name`, `user`
and `servo` hold the configured values unchanged. -/
theorem setupPeople_device_tuple (sections : List PersonSection) (key : String)
    (p : Person) (h : (key, p) ∈ setupPeople sections) :
    ∃ s, s ∈ sections ∧ isPersonKey s.key = true ∧
      key = s.username ++ "/" ++ s.deviceid ∧
      p.device = [s.deviceid] ∧ p.name = s.name ∧ p.user = s.username ∧
      p.servo = s.servo := by
  unfold setupPeople at h
  rcases List.mem_map.mp h with ⟨s, hs, he⟩
  have hs2 : s ∈ sections.filter (fun s => isPersonKey s.key) := mem_sortSections.mp hs
  have hs3 : s ∈ sections := (List.mem_filter.mp hs2).1
  have hs4 : isPersonKey s.key = true := (List.mem_filter.mp hs2).2
  have hk : s.username ++ "/" ++ s.deviceid = key := congrArg Prod.fst he
  have hp : mkPerson s.name s.username s.deviceid s.servo = p := congrArg Prod.snd he
  exact ⟨s, hs3, hs4, hk.symm, by rw [← hp]; rfl, by rw [← hp]; rfl,
    by rw [← hp]; rfl, by rw [← hp]; rfl⟩

/-- Witness for C10 at a concrete one-person configuration. -/
theorem setupPeople_device_tuple_witness :
    ∃ s, s ∈ [(⟨"person1", "Alice", "alice", "phone1", 0⟩ : PersonSection)] ∧
      isPersonKey s.key = true ∧
      "alice/phone1" = s.username ++ "/" ++ s.deviceid ∧
      (⟨"Alice", "alice", ["phone1"], 0⟩ : Person).device = [s.deviceid] ∧
      (⟨"Alice", "alice", ["phone1"], 0⟩ : Person).name = s.name ∧
      (⟨"Alice", "alice", ["phone1"], 0⟩ : Person).user = s.username ∧
      (⟨"Alice", "alice", ["phone1"], 0⟩ : Person).servo = s.servo :=
  setupPeople_device_tuple [⟨"person1", "Alice", "alice", "phone1", 0⟩]
    "alice/phone1" ⟨"Alice", "alice", ["phone1"], 0⟩ (by decide)

lemma maxQ_isSome {l : List ℚ} (h : l ≠ []) : ∃ m, maxQ l = some m := by
  cases l with
  | nil => exact absurd rfl h
  | cons x xs =>
    cases hm : maxQ xs with
    | none => exact ⟨x, by simp [maxQ, hm]⟩
    | some m => exact ⟨max x m, by simp [maxQ, hm]⟩

lemma maxQ_mem {l : List ℚ} {m : ℚ} (h : maxQ l = some m) : m ∈ l := by
  induction l generalizing m with
  | nil => simp [maxQ] at h
  | cons x xs ih =>
    cases hm : maxQ xs with
    | none =>
      rw [maxQ, hm] at h
      obtain rfl : x = m := Option.some_injective _ h
      exact List.mem_cons_self _ _
    | some mp =>
      rw [maxQ, hm] at h
      obtain he : max x mp = m := Option.some_injective _ h
      rcases max_choice x mp with hc | hc
      · rw [← he, hc]
        exact List.mem_cons_self _ _
      · rw [← he, hc]
        exact List.mem_cons_of_mem _ (ih hm)

lemma maxQ_eq_none {l : List ℚ} (h : maxQ l = none) : l = [] := by
  cases l with
  | nil => rfl
  | cons x xs => cases hm : maxQ xs <;> simp [maxQ, hm] at h

lemma le_maxQ {l : List ℚ} {x m : ℚ} (hx : x ∈ l) (h : maxQ l = some m) : x ≤ m := by
  induction l generalizing m with
  | nil => simp at hx
  | cons a xs ih =>
    cases hm : maxQ xs with
    | none =>
      obtain rfl : xs = [] := maxQ_eq_none hm
      rw [maxQ, hm] at h
      have he : a = m := Option.some_injective _ h
      have hxa : x = a := by simpa using hx
      rw [hxa, he]
    | some mp =>
      rw [maxQ, hm] at h
      obtain he : max a mp = m := Option.some_injective _ h
      rcases List.mem_cons.mp hx with rfl | hx2
      · rw [← he]
        exact le_max_left _ _
      · calc x ≤ mp := ih hx2 hm
          _ ≤ max a mp := le_max_right _ _
          _ = m := he

/-- In a list whose timestamps are pairwise distinct, filtering for one
attained timestamp value yields exactly the record attaining it. -/
lemma filter_ts_eq_singleton {l : List LocationRecord} {a : LocationRecord} {m : ℚ}
    (hnd : (l.map (fun r => r.timestamp)).Nodup) (ha : a ∈ l) (hm : a.timestamp = m) :
    l.filter (fun r => decide (r.timestamp = m)) = [a] := by
  induction l with
  | nil => simp at ha
  | cons b t ih =>
    rw [List.map_cons, List.nodup_cons] at hnd
    obtain ⟨hb, hnd2⟩ := hnd
    rcases List.mem_cons.mp ha with rfl | ha2
    · have hrest : t.filter (fun r => decide (r.timestamp = m)) = [] := by
        refine List.filter_eq_nil_iff.mpr ?_
        intro r hr hc
        refine hb ?_
        have : r.timestamp = m := of_decide_eq_true hc
        rw [hm, ← this]
        exact List.mem_map_of_mem _ hr
      rw [List.filter_cons, if_pos (by simpa using hm), hrest]
    · have hbm : ¬ (b.timestamp = m) := by
        intro hc
        refine hb ?_
        rw [hc, ← hm]
        exact List.mem_map_of_mem _ ha2
      rw [List.filter_cons, if_neg (by simpa using hbm)]
      exact ih hnd2 ha2

/-- Counterexample to claim C3: after N = 2 `recordState` calls for
identity `a` that share a timestamp, `latestStates` returns two records
for `a`, not exactly one — the view joins history back on
`(ident, max timestamp)` and both rows attain the maximum. -/
theorem latestStates_duplicate_timestamp_cex :
    (hEx.filter (fun r => r.ident == "a")).length = 2 ∧
    ((latestStates hEx).filter (fun r => r.ident == "a")).length = 2 := by
  decide

/-- Claim C3 as amended: for every identity with at least one recorded
state, provided the recorded timestamps for that identity are pairwise
distinct, `latestStates` returns exactly one record for that identity,
and that record is one of the recorded states for that identity and
carries a timestamp no smaller than every recorded state's for that
identity (i.e. it is the maximum-timestamp record). -/
theorem latestStates_unique_max_of_distinct_ts (history : List LocationRecord)
    (ident : String)
    (hne : history.filter (fun r => r.ident == ident) ≠ [])
    (hnd : ((history.filter (fun r => r.ident == ident)).map
      (fun r => r.timestamp)).Nodup) :
    ((latestStates history).filter (fun r => r.ident == ident)).length = 1 ∧
    ∀ r ∈ (latestStates history).filter (fun r => r.ident == ident),
      r ∈ history ∧ r.ident = ident ∧
      ∀ rp ∈ history, rp.ident = ident → rp.timestamp ≤ r.timestamp := by
  have hgne : (history.filter (fun r => r.ident == ident)).map
      (fun r => r.timestamp) ≠ [] := by
    intro hc
    exact hne (List.map_eq_nil_iff.mp hc)
  obtain ⟨m, hm⟩ := maxQ_isSome hgne
  have hmts : maxTs history ident = some m := hm
  obtain ⟨a0, ha0g, ha0ts⟩ := List.mem_map.mp (maxQ_mem hm)
  have key : (latestStates history).filter (fun r => r.ident == ident) = [a0] := by
    rw [latestStates, List.filter_comm]
    have hcong : (history.filter (fun r => r.ident == ident)).filter
        (fun r => decide (maxTs history r.ident = some r.timestamp)) =
        (history.filter (fun r => r.ident == ident)).filter
        (fun r => decide (r.timestamp = m)) := by
      refine List.filter_congr ?_
      intro r hr
      have hri : r.ident = ident := by
        have := (List.mem_filter.mp hr).2
        simpa using this
      rw [hri, hmts]
      refine decide_eq_decide.mpr ?_
      constructor
      · intro h
        exact (Option.some_injective _ h).symm
      · intro h
        rw [h]
    rw [hcong]
    exact filter_ts_eq_singleton hnd ha0g ha0ts
  refine ⟨by rw [key]; rfl, ?_⟩
  intro r hr
  rw [key] at hr
  obtain rfl : r = a0 := by simpa using hr
  have h1 : r ∈ history := (List.mem_filter.mp ha0g).1
  have h2 : r.ident = ident := by
    have := (List.mem_filter.mp ha0g).2
    simpa using this
  refine ⟨h1, h2, ?_⟩
  intro rp hrp hrpi
  have hrpg : rp ∈ history.filter (fun r => r.ident == ident) :=
    List.mem_filter.mpr ⟨hrp, by simpa using hrpi⟩
  have hmem : rp.timestamp ∈ (history.filter (fun r => r.ident == ident)).map
      (fun r => r.timestamp) := List.mem_map_of_mem _ hrpg
  calc rp.timestamp ≤ m := le_maxQ hmem hm
    _ = r.timestamp := ha0ts.symm

/-- Witness for the amended C3 at a concrete three-record history. -/
theorem latestStates_unique_max_witness :
    ((latestStates hW).filter (fun r => r.ident == "a")).length = 1 :=
  (latestStates_unique_max_of_distinct_ts hW "a" (by decide) (by decide)).1

end LocationClock
